/-
  Verification of the trial-synchronized spike-train reconstruction core of
  map-ephys (src/pipeline/ingest/ephys.py) against its natural-language
  specification.

  The file shallowly embeds the two JRClust-v3 ingestion paths of
  `EphysIngest` — the `_load_v3` loader and the `make_v3` loader — as
  executable Lean functions over lists of integer sample ticks (`Int`),
  rationals (`ℚ`) for the tick→seconds conversions, and `Except PyErr` for
  the Python exceptions each path can raise.  Theorems then settle the
  frozen claims about bitcode alignment, spike trializing, quality-note
  decoding, fallback renumbering, output atomicity and unit enumeration.
-/
import Mathlib

namespace MapEphys

/-- Python exceptions that the embedded code paths can raise.
`keyError` is a `dict` lookup failure (e.g. `bf['trialNum']` on a bitcode
file without a `trialNum` variable, or the `note_map[...]` lookup in
`_load_v3.decode_notes`); `indexError` is an out-of-bounds array index
(e.g. `np.where(...)[0][0]` on an empty match list); `valueError` is a
numpy broadcast failure in `np.equal` on incompatible shapes;
`bitcodeMismatch` is `Exception('Bitcode Mismatch')` raised by `make_v3`;
`multiAnchor` stands for the ill-typed downstream state after
`np.where(...)[0].squeeze()` yields a non-scalar in `make_v3`;
`nameError` is the unbound `s1` in `_load_v3` when fewer than two trial
starts exist. -/
inductive PyErr where
  | keyError
  | indexError
  | valueError
  | bitcodeMismatch
  | multiAnchor
  | nameError
deriving DecidableEq, Repr

instance {ε α : Type} [DecidableEq ε] [DecidableEq α] :
    DecidableEq (Except ε α) := fun x y =>
  match x, y with
  | .ok a, .ok b =>
    if h : a = b then .isTrue (by rw [h])
    else .isFalse (by intro he; cases he; exact h rfl)
  | .error a, .error b =>
    if h : a = b then .isTrue (by rw [h])
    else .isFalse (by intro he; cases he; exact h rfl)
  | .ok _, .error _ => .isFalse (by intro he; cases he)
  | .error _, .ok _ => .isFalse (by intro he; cases he)

/-- `np.where(l == v)[0]`: every index of `l` holding value `v`. -/
def npWhereEq (l : List Int) (v : Int) : List Nat :=
  (List.range l.length).filter (fun i => l.getD i 0 == v)

/-- `np.where(l == v)[0][0]`: the first index of `l` holding `v`;
`none` models the `IndexError` when `v` does not occur. -/
def npFirstEq (l : List Int) (v : Int) : Option Nat :=
  l.findIdx? (fun x => x == v)

/-- `np.all(np.equal(xs, ys))` on 1-d arrays: element-wise comparison with
numpy broadcasting.  Equal lengths compare element-wise; a length-1 operand
broadcasts against the other; any other length mismatch raises a
`ValueError` (shapes cannot be broadcast together). -/
def npAllEq (xs ys : List Int) : Except PyErr Bool :=
  if xs.length = ys.length then .ok (xs == ys)
  else if ys.length = 1 then .ok (xs.all (fun x => x == ys.getD 0 0))
  else if xs.length = 1 then .ok (ys.all (fun y => y == xs.getD 0 0))
  else .error .valueError

/-- `np.where(...)[0].squeeze()` read as a scalar, as `make_v3` does for
`startB`/`startE`: a single index squeezes to a scalar; an empty or
multi-element index array yields a non-scalar whose downstream use as a
trial number is ill-typed (modelled as `multiAnchor`). -/
def npSqueezeIdx (l : List Nat) : Except PyErr Nat :=
  match l with
  | [x] => .ok x
  | _ => .error .multiAnchor

/-- `_load_v3.decode_notes` single-entry lookup: the dict
`{'single': 'good', 'ok': 'ok', 'multi': 'multi', '\x00\x00': 'all'}`;
a key outside the vocabulary raises `KeyError`. -/
def note_map (s : String) : Except PyErr String :=
  if s = "single" then .ok "good"
  else if s = "ok" then .ok "ok"
  else if s = "multi" then .ok "multi"
  else if s = "\x00\x00" then .ok "all"
  else .error .keyError

/-- `_load_v3.decode_notes`: decode every curation note, failing on the
first unrecognized code (the list comprehension raises out). -/
def decode_notes (notes : List String) : Except PyErr (List String) :=
  notes.mapM note_map

/-- `make_v3` quality decoding (lines 502-512): every unit starts as
`"all"`; only `single`/`ok`/`multi` overwrite it, any other note silently
keeps the default label. -/
def makeV3Quality (s : String) : String :=
  if s = "single" then "good"
  else if s = "ok" then "ok"
  else if s = "multi" then "multi"
  else "all"

/-- `make_v3` quality decoding over the whole note list. -/
def makeV3Qualities (notes : List String) : List String :=
  notes.map makeV3Quality

/-- `_load_v3` trial (re)numbering (lines 245-273): anchor the behavioral
sync sequence at the first occurrence of `sync_ephys[0]`, take the
candidate window, compare; on match compute the constant shift
`start_behav` and return `np.arange(len(sync_behav_range)) - start_behav`;
on mismatch read `bf['trialNum']` and return `trialNum - (-1)`.  When the
bitcode file has no `trialNum` variable the dict access raises `KeyError`,
which the surrounding `except IndexError` clause cannot catch. -/
def loadV3Trials (sync_ephys sync_behav : List Int)
    (trialNum : Option (List Int)) : Except PyErr (List Int) :=
  match sync_ephys with
  | [] => .error .indexError
  | e0 :: _ =>
    match npFirstEq sync_behav e0 with
    | none => .error .indexError
    | some sync_behav_start =>
      let sync_behav_range :=
        (sync_behav.drop sync_behav_start).take sync_ephys.length
      match npAllEq sync_ephys sync_behav_range with
      | .error e => .error e
      | .ok true =>
        let start_behav : Except PyErr Int :=
          if sync_behav.length < sync_ephys.length then
            match sync_behav with
            | [] => .error .indexError
            | b0 :: _ =>
              match npFirstEq sync_ephys b0 with
              | none => .error .indexError
              | some k => .ok (k : Int)
          else if sync_behav.length > sync_ephys.length then
            match npFirstEq sync_behav e0 with
            | none => .error .indexError
            | some k => .ok (-(k : Int))
          else .ok 0
        start_behav.map (fun s =>
          (List.range sync_behav_range.length).map (fun i => (i : Int) - s))
      | .ok false =>
        match trialNum with
        | some tn => .ok (tn.map (fun x => x + 1))
        | none => .error .keyError

/-- `make_v3` trial renumbering (lines 544-552 and 592-605): the bitcode
comparison decides between `spike_trials_fix = np.arange(...)` with the
`startB` shift (match) and `spike_trials_fix = trialNum - 1` with
`startB = 0` (mismatch with fallback); a mismatch without `trialNum`
raises `Exception('Bitcode Mismatch')`.  In the match branch `startB`
comes from `np.where(...)[0].squeeze()`, which is only a usable scalar
when the matched value occurs exactly once.  Returns
`(spike_trials_fix, startB)`. -/
def makeV3FixAndStart (bitCodeE bitCodeB : List Int)
    (trialNum : Option (List Int)) (maxTrial : Nat) :
    Except PyErr (List Int × Int) :=
  match bitCodeE with
  | [] => .error .indexError
  | e0 :: _ =>
    match npFirstEq bitCodeB e0 with
    | none => .error .indexError
    | some bitCodeB_0 =>
      let bitCodeB_ext := (bitCodeB.drop bitCodeB_0).take bitCodeE.length
      match npAllEq bitCodeE bitCodeB_ext with
      | .error e => .error e
      | .ok false =>
        match trialNum with
        | some tn => .ok (tn.map (fun x => x - 1), 0)
        | none => .error .bitcodeMismatch
      | .ok true =>
        let startB : Except PyErr Int :=
          if bitCodeB.length < bitCodeE.length then
            match bitCodeB with
            | [] => .error .indexError
            | b0 :: _ =>
              (npSqueezeIdx (npWhereEq bitCodeE b0)).map (fun k => (k : Int))
          else if bitCodeB.length > bitCodeE.length then
            (npSqueezeIdx (npWhereEq bitCodeB e0)).map (fun k => -(k : Int))
          else .ok 0
        startB.map (fun s =>
          ((List.range (maxTrial + 1)).map (fun i => (i : Int)), s))

/-- The behavioral trial label `make_v3` attaches to ephys trial position
`tr`: `spike_trials_fix[tr] - startB` (lines 613 and 623). -/
def makeV3TrialLabel (bitCodeE bitCodeB : List Int)
    (trialNum : Option (List Int)) (maxTrial : Nat) (tr : Nat) :
    Except PyErr Int :=
  (makeV3FixAndStart bitCodeE bitCodeB trialNum maxTrial).map
    (fun p => p.1.getD tr 0 - p.2)

/-- The descending trializing loop of `make_v3` (lines 556-559), acting on
one spike of absolute tick `s`.  Python iterates `i` from
`len(viT_offset_file) - 1` down to `1`; fuel value `i` here checks the mask
`viT[i-1] <= s < viT[i]` and on a hit overwrites the running
`(spike_trial, spike_time2)` state with `(i-1, s - goCue[i-1])`. -/
def makeV3Loop (viT goCue : List Int) (s : Int) :
    Nat → Nat × Int → Nat × Int
  | 0, st => st
  | i + 1, st =>
    makeV3Loop viT goCue s i
      (if viT.getD i 0 ≤ s ∧ s < viT.getD (i + 1) 0 then
        (i, s - goCue.getD i 0)
      else st)

/-- `make_v3` per-spike trializing (lines 554-562): initialize every spike
to the last trial with its raw tick, run the descending window loop, then
reassign to the last trial (subtracting the last go cue) every spike whose
*current* `spike_times2` value is at or past the last trial start.
Returns `(spike_trials, spike_times2)` for the spike. -/
def makeV3Assign (viT goCue : List Int) (s : Int) : Nat × Int :=
  if viT.getD (viT.length - 1) 0 ≤
      (makeV3Loop viT goCue s (viT.length - 1) (viT.length - 1, s)).2 then
    (viT.length - 1, s - goCue.getD (viT.length - 1) 0)
  else makeV3Loop viT goCue s (viT.length - 1) (viT.length - 1, s)

/-- `make_v3` per-unit, per-trial spike bucket: the bitcode file's `sTrig`
is shifted by 7500 ticks to obtain the window starts (line 539), each
spike is assigned a trial by `makeV3Assign`, the unit's spikes are selected
by cluster id (line 567) and the bucket holds the go-cue-relative tick
values of that unit's spikes in trial `tr` (line 622). -/
def makeV3UnitTrialBucket (sTrig goCue spikes : List Int)
    (clusters : List Nat) (u : Nat) (tr : Nat) : List Int :=
  let viT := sTrig.map (fun x => x - 7500)
  let pairs := (spikes.zip clusters).filter (fun p => p.2 == u)
  (pairs.filter (fun p => (makeV3Assign viT goCue p.1).1 == tr)).map
    (fun p => (makeV3Assign viT goCue p.1).2)

/-- `make_v3` whole-session spike train of one unit (lines 576-585): the
go-cue-relative seconds of each of the unit's spikes, with the trial's
go cue and trial start time added back, sorted ascending. -/
def makeV3SessionSpikes (hz : ℚ) (sTrig goCue spikes : List Int)
    (clusters : List Nat) (u : Nat) : List ℚ :=
  let viT := sTrig.map (fun x => x - 7500)
  let pairs := (spikes.zip clusters).filter (fun p => p.2 == u)
  let vals := pairs.map (fun p =>
    let a := makeV3Assign viT goCue p.1
    ((a.2 : ℚ) / hz) + ((goCue.getD a.1 0 : ℚ) / hz) +
      (((viT.getD a.1 0 : Int) : ℚ) / hz))
  vals.mergeSort (fun a b => a ≤ b)

/-- `_load_v3` per-unit, per-trial spike buckets (lines 276-308): window
starts are `sTrig - 7500` (line 242); trial `t < n-1` selects spikes with
`trial_start[t] < s` **and** `s < trial_start[t+1]` (both strict,
line 282) and subtracts `goCue[t]`; the final bucket takes
`s > trial_start[n-1]` (line 290).  The per-unit bucket then filters by
cluster id (line 307).  With fewer than two trial starts the variable `s1`
is never bound and line 290 raises `NameError`, modelled as `none`. -/
def loadV3UnitTrialSpikes (sTrig goCue spikes : List Int)
    (units : List Nat) (u : Nat) : Option (List (List Int)) :=
  let trial_start := sTrig.map (fun x => x - 7500)
  let n := trial_start.length
  if n < 2 then none
  else
    let pairs := spikes.zip units
    let buckets := (List.range (n - 1)).map (fun t =>
      ((pairs.filter (fun p =>
          trial_start.getD t 0 < p.1 ∧ p.1 < trial_start.getD (t + 1) 0)
        ).filter (fun p => p.2 == u)).map
        (fun p => p.1 - goCue.getD t 0))
    let last :=
      ((pairs.filter (fun p => trial_start.getD (n - 1) 0 < p.1)).filter
        (fun p => p.2 == u)).map (fun p => p.1 - goCue.getD (n - 1) 0)
    some (buckets ++ [last])

/-- `_load_v3` whole-session spike train of one unit (lines 297-304): the
unit's spike ticks divided by the sampling rate, minus the first entry of
`trial_start / hz` (where `trial_start = sTrig - 7500`). -/
def loadV3SessionSpikes (hz : ℚ) (sTrig : List Int) (spikes : List Int)
    (units : List Nat) (u : Nat) : List ℚ :=
  let trial_start : List ℚ := sTrig.map (fun x => ((x - 7500 : Int) : ℚ))
  let spikesSec : List ℚ :=
    ((spikes.zip units).filter (fun p => p.2 == u)).map
      (fun p => ((p.1 : ℚ) / hz))
  let trial_startSec := trial_start.map (fun x => x / hz)
  spikesSec.map (fun x => x - trial_startSec.getD 0 0)

/-- Slot probing of a CPython `set` of small ints in the no-resize regime
(at most four distinct elements, hash table of eight slots, `hash(n) = n`):
open addressing starting at `v % 8`, linearly probing to the first slot
that is free or already holds `v`.  Both loaders enumerate units with
`set(...)`/`enumerate(set(...))`, so this models the order Python actually
produces, which the spec claims is ascending. -/
def pyProbeSlot (t : Nat → Option Nat) (v : Nat) : Nat :=
  match (List.range 8).find? (fun k =>
      (t ((v % 8 + k) % 8)).isNone || (t ((v % 8 + k) % 8) == some v)) with
  | some k => (v % 8 + k) % 8
  | none => v % 8

/-- Insert one int into the modelled CPython hash table. -/
def pyInsert (t : Nat → Option Nat) (v : Nat) : Nat → Option Nat :=
  fun j => if j = pyProbeSlot t v then some v else t j

/-- The hash table of `set(xs)` for a list of small ints. -/
def pySetTable (xs : List Nat) : Nat → Option Nat :=
  xs.foldl pyInsert (fun _ => none)

/-- `list(set(xs))` / iteration order of `set(xs)`: the occupied slots in
table order. -/
def pySetList (xs : List Nat) : List Nat :=
  (List.range 8).filterMap (pySetTable xs)

/-- How both loaders attach positional per-unit metadata: the `i`-th
element of the `set` enumeration receives the `i`-th entry of the
id-ordered metadata array (`unit_notes[i]`, `strs[u_id]`, ...;
`_load_v3` lines 321-338, `make_v3` lines 577-585). -/
def attachByEnum (unitIds : List Nat) (meta : List String) :
    List (Nat × String) :=
  (pySetList unitIds).enum.map (fun p => (p.2, meta.getD p.1 ""))

/-- The record kinds the ingestion emits to the datajoint store. -/
inductive RecKind where
  | electrodeConfig
  | probeInsertion
  | recordingSetup
  | unitRec
  | unitTrialRec
  | trialSpikeRec
  | ingestRec
  | fileRec
deriving DecidableEq, Repr

/-- Outcome of one session-probe ingestion: the record kinds emitted
before returning or raising, and the error raised (if any). -/
structure RunResult where
  emitted : List RecKind
  err : Option PyErr
deriving DecidableEq, Repr

/-- The inputs one ingestion call consumes from its collaborators. -/
structure IngestInputs where
  notes : List String
  syncE : List Int
  syncB : List Int
  trialNum : Option (List Int)
  sTrig : List Int
  goCue : List Int
  spikes : List Int
  units : List Nat
  cfgExists : Bool
deriving Repr

/-- The electrode-config/probe-insertion records created by
`_gen_probe_insert` / `make_v3` lines 463-484 (the electrode config is
only created when absent). -/
def probeRecords (cfgExists : Bool) : List RecKind :=
  (if cfgExists then [] else [.electrodeConfig]) ++
    [.probeInsertion, .recordingSetup]

/-- `_load_v3` control flow as an emission trace: decode the curation
notes (line 235), run the bitcode alignment (lines 245-273), trialize
(lines 276-292, needing at least two trial starts for `s1` to be bound),
and only then — lines 311-383 — create the probe insertion and insert
unit, unit-trial, trial-spike, ingest and file records. -/
def loadV3Run (inp : IngestInputs) : RunResult :=
  match decode_notes inp.notes with
  | .error e => ⟨[], some e⟩
  | .ok _ =>
    match loadV3Trials inp.syncE inp.syncB inp.trialNum with
    | .error e => ⟨[], some e⟩
    | .ok _ =>
      if inp.sTrig.length < 2 then ⟨[], some .nameError⟩
      else
        ⟨probeRecords inp.cfgExists ++
          [.unitRec, .unitTrialRec, .trialSpikeRec, .ingestRec, .fileRec],
          none⟩

/-- `make_v3` control flow as an emission trace: the electrode config and
probe insertion are inserted first (lines 470-484), then spikes and
quality labels are extracted (total, lines 490-522), then the bitcode is
checked (lines 537-552); units are inserted (line 587) before the
`startB` squeeze (lines 592-605), after which unit-trial, trial-spike,
ingest and file records follow. -/
def makeV3Run (inp : IngestInputs) : RunResult :=
  let pre := probeRecords inp.cfgExists
  match makeV3FixAndStart inp.syncE inp.syncB inp.trialNum
      (inp.sTrig.length - 1) with
  | .error .multiAnchor => ⟨pre ++ [.unitRec], some .multiAnchor⟩
  | .error e => ⟨pre, some e⟩
  | .ok _ =>
    if inp.sTrig.length = 0 then ⟨pre, some .indexError⟩
    else
      ⟨pre ++
        [.unitRec, .unitTrialRec, .trialSpikeRec, .ingestRec, .fileRec],
        none⟩

/-- The claim's offset (C1), stated from the spec's words: zero for equal
lengths, the index of `sync_behav[0]` within `sync_ephys` when the
behavioral sequence is shorter, the negative of the index of
`sync_ephys[0]` within `sync_behav` when it is longer. -/
def claimedOffsetC1 (sync_ephys sync_behav : List Int) : Int :=
  if sync_behav.length = sync_ephys.length then 0
  else if sync_behav.length < sync_ephys.length then
    (((npFirstEq sync_ephys (sync_behav.getD 0 0)).getD 0 : Nat) : Int)
  else -(((npFirstEq sync_behav (sync_ephys.getD 0 0)).getD 0 : Nat) : Int)

/- ------------------------------------------------------------------ -/
/- Helper lemmas about the `make_v3` trializing loop.                  -/
/- ------------------------------------------------------------------ -/

lemma makeV3Loop_id (viT goCue : List Int) (s : Int) (m : Nat)
    (st : Nat × Int)
    (h : ∀ k, k < m → ¬(viT.getD k 0 ≤ s ∧ s < viT.getD (k + 1) 0)) :
    makeV3Loop viT goCue s m st = st := by
  induction m generalizing st with
  | zero => rfl
  | succ m ih =>
    simp only [makeV3Loop]
    rw [if_neg (h m (Nat.lt_succ_self m))]
    exact ih st (fun k hk => h k (Nat.lt_succ_of_lt hk))

lemma getD_mono_le (viT : List Int)
    (hmono : ∀ j, j < viT.length → ∀ i, i < j →
      viT.getD i 0 < viT.getD j 0)
    {i j : Nat} (hij : i ≤ j) (hj : j < viT.length) :
    viT.getD i 0 ≤ viT.getD j 0 := by
  rcases Nat.eq_or_lt_of_le hij with h | h
  · rw [h]
  · exact le_of_lt (hmono j hj i h)

lemma makeV3Loop_write (viT goCue : List Int) (s : Int) (t : Nat)
    (hmono : ∀ j, j < viT.length → ∀ i, i < j →
      viT.getD i 0 < viT.getD j 0)
    (ht : t + 1 < viT.length)
    (hlo : viT.getD t 0 ≤ s) (hhi : s < viT.getD (t + 1) 0) :
    ∀ m, t < m → m < viT.length → ∀ st,
      makeV3Loop viT goCue s m st = (t, s - goCue.getD t 0) := by
  intro m
  induction m with
  | zero => intro h; omega
  | succ m ih =>
    intro htm hm st
    simp only [makeV3Loop]
    by_cases hc : t = m
    · subst hc
      rw [if_pos ⟨hlo, hhi⟩]
      apply makeV3Loop_id
      intro k hk hb
      have hle : viT.getD (k + 1) 0 ≤ viT.getD t 0 :=
        getD_mono_le viT hmono (by omega) (by omega)
      omega
    · have hnm : ¬(viT.getD m 0 ≤ s ∧ s < viT.getD (m + 1) 0) := by
        have hle : viT.getD (t + 1) 0 ≤ viT.getD m 0 :=
          getD_mono_le viT hmono (by omega) (by omega)
        omega
      rw [if_neg hnm]
      exact ih (by omega) (by omega) st

lemma makeV3Loop_fst_src (viT goCue : List Int) (s : Int) :
    ∀ m st, (makeV3Loop viT goCue s m st).1 = st.1 ∨
      ∃ k, k < m ∧ (makeV3Loop viT goCue s m st).1 = k ∧
        (viT.getD k 0 ≤ s ∧ s < viT.getD (k + 1) 0) := by
  intro m
  induction m with
  | zero => intro st; left; rfl
  | succ m ih =>
    intro st
    simp only [makeV3Loop]
    by_cases hc : viT.getD m 0 ≤ s ∧ s < viT.getD (m + 1) 0
    · rw [if_pos hc]
      rcases ih (m, s - goCue.getD m 0) with h | ⟨k, hk, hke, hkb⟩
      · right; exact ⟨m, Nat.lt_succ_self m, h, hc⟩
      · right; exact ⟨k, Nat.lt_succ_of_lt hk, hke, hkb⟩
    · rw [if_neg hc]
      rcases ih st with h | ⟨k, hk, hke, hkb⟩
      · left; exact h
      · right; exact ⟨k, Nat.lt_succ_of_lt hk, hke, hkb⟩

lemma makeV3Assign_of_bounds (viT goCue : List Int) (s : Int) (t : Nat)
    (hmono : ∀ j, j < viT.length → ∀ i, i < j →
      viT.getD i 0 < viT.getD j 0)
    (ht : t + 1 < viT.length) (hg : 0 ≤ goCue.getD t 0)
    (hlo : viT.getD t 0 ≤ s) (hhi : s < viT.getD (t + 1) 0) :
    makeV3Assign viT goCue s = (t, s - goCue.getD t 0) := by
  unfold makeV3Assign
  rw [makeV3Loop_write viT goCue s t hmono ht hlo hhi (viT.length - 1)
    (by omega) (by omega)]
  have hle : viT.getD (t + 1) 0 ≤ viT.getD (viT.length - 1) 0 :=
    getD_mono_le viT hmono (by omega) (by omega)
  rw [if_neg (by simp only; omega)]

lemma makeV3Assign_fst_bounds (viT goCue : List Int) (s : Int) (t : Nat)
    (ht : t + 1 < viT.length)
    (h : (makeV3Assign viT goCue s).1 = t) :
    viT.getD t 0 ≤ s ∧ s < viT.getD (t + 1) 0 := by
  unfold makeV3Assign at h
  split at h
  · simp only at h; omega
  · rcases makeV3Loop_fst_src viT goCue s (viT.length - 1)
      (viT.length - 1, s) with h1 | ⟨k, hk, hke, hkb⟩
    · rw [h1] at h; simp only at h; omega
    · rw [hke] at h; rw [h] at hkb; exact hkb

lemma makeV3Assign_fst_lt (viT goCue : List Int) (s : Int)
    (hn : viT ≠ []) : (makeV3Assign viT goCue s).1 < viT.length := by
  have hl : 0 < viT.length := List.length_pos.mpr hn
  unfold makeV3Assign
  split
  · simp only; omega
  · rcases makeV3Loop_fst_src viT goCue s (viT.length - 1)
      (viT.length - 1, s) with h1 | ⟨k, hk, hke, _⟩
    · rw [h1]; simp only; omega
    · rw [hke]; omega

lemma makeV3Assign_last (viT goCue : List Int) (s : Int)
    (hmono : ∀ j, j < viT.length → ∀ i, i < j →
      viT.getD i 0 < viT.getD j 0)
    (hn : viT ≠ [])
    (hterm : viT.getD (viT.length - 1) 0 ≤ s) :
    makeV3Assign viT goCue s =
      (viT.length - 1, s - goCue.getD (viT.length - 1) 0) := by
  have hl : 0 < viT.length := List.length_pos.mpr hn
  unfold makeV3Assign
  rw [makeV3Loop_id viT goCue s (viT.length - 1) (viT.length - 1, s)
    (by
      intro k hk hb
      have hle : viT.getD (k + 1) 0 ≤ viT.getD (viT.length - 1) 0 :=
        getD_mono_le viT hmono (by omega) (by omega)
      omega)]
  rw [if_pos hterm]

lemma sum_length_filter_eq {α : Type} (l : List α) (g : α → Nat) (n : Nat)
    (hg : ∀ p ∈ l, g p < n) :
    ∑ t in Finset.range n, (l.filter (fun p => g p == t)).length =
      l.length := by
  induction l with
  | nil => simp
  | cons x l ih =>
    have hx : g x < n := hg x (List.mem_cons_self x l)
    have ihl := ih (fun p hp => hg p (List.mem_cons_of_mem x hp))
    simp only [List.filter_cons]
    have hsplit : ∀ t, (if (g x == t) = true then
        x :: l.filter (fun p => g p == t)
      else l.filter (fun p => g p == t)).length =
        (if g x = t then 1 else 0) + (l.filter (fun p => g p == t)).length := by
      intro t
      by_cases h : g x = t
      · simp [h]; omega
      · simp [h]
    rw [Finset.sum_congr rfl (fun t _ => hsplit t), Finset.sum_add_distrib,
      ihl, Finset.sum_ite_eq]
    simp only [Finset.mem_range.mpr hx, if_true, List.length_cons]
    omega

lemma getD_map_sub (l : List Int) (c : Int) :
    ∀ i, i < l.length →
      (l.map (fun x => x - c)).getD i 0 = l.getD i 0 - c := by
  induction l with
  | nil => intro i hi; simp at hi
  | cons a l ih =>
    intro i hi
    cases i with
    | zero => rfl
    | succ i =>
      simp only [List.map_cons, List.getD_cons_succ]
      exact ih i (by simpa using hi)

lemma getD_map_int (l : List Int) (f : Int → Int) :
    ∀ i, i < l.length → (l.map f).getD i 0 = f (l.getD i 0) := by
  induction l with
  | nil => intro i hi; simp at hi
  | cons a l ih =>
    intro i hi
    cases i with
    | zero => rfl
    | succ i =>
      simp only [List.map_cons, List.getD_cons_succ]
      exact ih i (by simpa using hi)

lemma getD_range_map {α : Type} (d : α) (f : Nat → α) (m : Nat) :
    ∀ t, t < m → ((List.range m).map f).getD t d = f t := by
  induction m with
  | zero => intro t ht; omega
  | succ m ih =>
    intro t ht
    rw [List.range_succ, List.map_append]
    by_cases hc : t < m
    · rw [List.getD_append _ _ _ _ (by simpa using hc)]
      exact ih t hc
    · have hte : t = m := by omega
      subst hte
      rw [List.getD_append_right _ _ _ _ (by simp)]
      simp

/- ------------------------------------------------------------------ -/
/- Claim theorems.                                                     -/
/- ------------------------------------------------------------------ -/

/-- Claim C2 (amended): in the `make_v3` trializer, with strictly
increasing window starts and a non-negative go cue, a spike is assigned to
non-terminal trial `t` exactly when `start_tick_t <= spike.time <
start_tick_{t+1}`; in particular a spike exactly at `start_tick_t` goes to
trial `t` (so one exactly at `start_tick_{t+1}` goes to `t+1`, not `t`),
and the terminal window is closed on the right.  (`_load_v3` violates the
claim as stated: see the counterexample theorem, its window test is strict
on both sides.) -/
theorem makeV3_trializer_halfopen (viT goCue : List Int) (s : Int) (t : Nat)
    (hmono : ∀ j, j < viT.length → ∀ i, i < j →
      viT.getD i 0 < viT.getD j 0)
    (ht : t + 1 < viT.length) (hg : 0 ≤ goCue.getD t 0) :
    ((makeV3Assign viT goCue s).1 = t ↔
      (viT.getD t 0 ≤ s ∧ s < viT.getD (t + 1) 0)) ∧
    (viT.getD (viT.length - 1) 0 ≤ s →
      (makeV3Assign viT goCue s).1 = viT.length - 1) := by
  constructor
  · constructor
    · exact makeV3Assign_fst_bounds viT goCue s t ht
    · intro hb
      rw [makeV3Assign_of_bounds viT goCue s t hmono ht hg hb.1 hb.2]
  · intro hterm
    rw [makeV3Assign_last viT goCue s hmono
      (by intro hc; rw [hc] at ht; simp at ht) hterm]

/-- Witness for `makeV3_trializer_halfopen`: with window starts
`[0, 10, 20]`, a spike exactly at tick `10` (= `start_tick_1`) is assigned
to trial 1, not trial 0. -/
theorem makeV3_trializer_halfopen_witness :
    (makeV3Assign [0, 10, 20] [1, 2, 3] 10).1 = 1 :=
  (makeV3_trializer_halfopen [0, 10, 20] [1, 2, 3] 10 1 (by decide)
    (by decide) (by decide)).1.mpr (by decide)

/-- Claim C2 counterexample: in `_load_v3`, with trial starts
`[0, 10]` (from `sTrig = [7500, 7510]`), the spike at tick `10` — exactly
`start_tick_1` — is assigned to *no* trial (both buckets empty), whereas
the claim requires it in trial 1's bucket (`[10 - goCue[1]] = [10]`). -/
theorem loadV3_boundary_spike_dropped :
    loadV3UnitTrialSpikes [7500, 7510] [0, 0] [10] [1] 1 =
      some [[], []] ∧
    loadV3UnitTrialSpikes [7500, 7510] [0, 0] [10] [1] 1 ≠
      some [[], [10]] := by decide

/-- Claim C3 (amended): in the `make_v3` trializer every spike of a unit
is assigned to exactly one trial, so the per-trial bucket lengths of a
unit sum to the length of that unit's session-relative spike train.
(`_load_v3` violates the claim as stated: see the counterexample
theorem.) -/
theorem makeV3_spike_conservation (hz : ℚ) (sTrig goCue spikes : List Int)
    (clusters : List Nat) (u : Nat) (hn : sTrig ≠ []) :
    ∑ tr in Finset.range sTrig.length,
      (makeV3UnitTrialBucket sTrig goCue spikes clusters u tr).length =
    (makeV3SessionSpikes hz sTrig goCue spikes clusters u).length := by
  unfold makeV3UnitTrialBucket makeV3SessionSpikes
  simp only [List.length_map, List.length_mergeSort]
  apply sum_length_filter_eq
  intro p _
  have hlen : (sTrig.map (fun x => x - 7500)).length = sTrig.length :=
    List.length_map _ _
  rw [← hlen]
  apply makeV3Assign_fst_lt
  simpa using hn

/-- Witness for `makeV3_spike_conservation` at a session with a boundary
spike, a pre-first-trial spike and a post-last-trial spike. -/
theorem makeV3_spike_conservation_witness :
    ∑ tr in Finset.range 2,
      (makeV3UnitTrialBucket [7500, 7510] [0, 0] [0, 5, 10, 99] [1, 1, 1, 1]
        1 tr).length =
    (makeV3SessionSpikes 10 [7500, 7510] [0, 0] [0, 5, 10, 99] [1, 1, 1, 1]
      1).length :=
  makeV3_spike_conservation 10 [7500, 7510] [0, 0] [0, 5, 10, 99]
    [1, 1, 1, 1] 1 (by decide)

/-- Claim C3 counterexample: in `_load_v3`, with trial starts `[0, 10]`
and unit-1 spikes at ticks `[0, 5, 10]`, the per-trial buckets hold one
spike in total (the strict window test drops the spikes at ticks 0 and
10), while the unit's session-relative spike train has three spikes. -/
theorem loadV3_spike_loss :
    (((loadV3UnitTrialSpikes [7500, 7510] [0, 0] [0, 5, 10] [1, 1, 1]
        1).getD []).map List.length).sum = 1 ∧
    (loadV3SessionSpikes 10 [7500, 7510] [0, 5, 10] [1, 1, 1] 1).length =
      3 ∧
    (1 : Nat) ≠ 3 := by
  refine ⟨by decide, ?_, by decide⟩
  simp [loadV3SessionSpikes]

/-- Claim C10: in both v3 loaders every trial-window start tick used for
spike bucketing is the raw `sTrig` trigger value minus exactly 7500 ticks,
while the go-cue value subtracted from the selected spike times is the
unshifted `goCue` tick: in `make_v3` a spike lands in non-terminal trial
`t` with go-cue-relative time `s - goCue[t]` exactly when
`sTrig[t] - 7500 <= s < sTrig[t+1] - 7500`, and in `_load_v3` the trial-`t`
bucket is the (strictly) windowed spikes `sTrig[t] - 7500 < s <
sTrig[t+1] - 7500` shifted by the raw `goCue[t]`. -/
theorem trial_windows_from_sTrig (sTrig goCue : List Int) (s : Int)
    (t : Nat)
    (hmono : ∀ j, j < sTrig.length → ∀ i, i < j →
      sTrig.getD i 0 < sTrig.getD j 0)
    (ht : t + 1 < sTrig.length) (hg : 0 ≤ goCue.getD t 0) :
    (makeV3Assign (sTrig.map (fun x => x - 7500)) goCue s =
        (t, s - goCue.getD t 0) ↔
      (sTrig.getD t 0 - 7500 ≤ s ∧ s < sTrig.getD (t + 1) 0 - 7500)) ∧
    (∀ spikes units u bs,
      loadV3UnitTrialSpikes sTrig goCue spikes units u = some bs →
      bs.getD t [] =
        (((spikes.zip units).filter (fun p =>
            sTrig.getD t 0 - 7500 < p.1 ∧
              p.1 < sTrig.getD (t + 1) 0 - 7500)).filter
          (fun p => p.2 == u)).map (fun p => p.1 - goCue.getD t 0)) := by
  have hlen : (sTrig.map (fun x => x - 7500)).length = sTrig.length :=
    List.length_map _ _
  have hvt : (sTrig.map (fun x => x - 7500)).getD t 0 =
      sTrig.getD t 0 - 7500 := getD_map_sub sTrig 7500 t (by omega)
  have hvt1 : (sTrig.map (fun x => x - 7500)).getD (t + 1) 0 =
      sTrig.getD (t + 1) 0 - 7500 := getD_map_sub sTrig 7500 (t + 1) ht
  have hmono' : ∀ j, j < (sTrig.map (fun x => x - 7500)).length → ∀ i,
      i < j → (sTrig.map (fun x => x - 7500)).getD i 0 <
        (sTrig.map (fun x => x - 7500)).getD j 0 := by
    intro j hj i hij
    rw [hlen] at hj
    rw [getD_map_sub sTrig 7500 j hj, getD_map_sub sTrig 7500 i (by omega)]
    have := hmono j hj i hij
    omega
  constructor
  · constructor
    · intro h
      have h1 : (makeV3Assign (sTrig.map (fun x => x - 7500)) goCue s).1 =
          t := by rw [h]
      have hb := makeV3Assign_fst_bounds _ goCue s t (by omega) h1
      rw [hvt, hvt1] at hb
      exact hb
    · intro hb
      exact makeV3Assign_of_bounds _ goCue s t hmono' (by omega) hg
        (by rw [hvt]; exact hb.1) (by rw [hvt1]; exact hb.2)
  · intro spikes units u bs hbs
    unfold loadV3UnitTrialSpikes at hbs
    simp only [hlen] at hbs
    rw [if_neg (by omega)] at hbs
    have hbs' := Option.some.inj hbs
    rw [← hbs']
    rw [List.getD_append _ _ _ _
      (by simp only [List.length_map, List.length_range]; omega)]
    rw [getD_range_map [] _ (sTrig.length - 1) t (by omega)]
    simp only [hvt, hvt1]

/-- Witness for `trial_windows_from_sTrig`: triggers `[7500, 7510]` give
windows starting at ticks 0 and 10; the spike at tick 3 lands in trial 0
with go-cue-relative tick `3 - 1 = 2`. -/
theorem trial_windows_from_sTrig_witness :
    makeV3Assign (([7500, 7510] : List Int).map (fun x => x - 7500))
      [1, 2] 3 = (0, 2) :=
  (trial_windows_from_sTrig [7500, 7510] [1, 2] 3 0 (by decide) (by decide)
    (by decide)).1.mpr (by decide)

/-- Claim C1 (amended): in `_load_v3`, whenever the behavioral
sub-sequence anchored at the first occurrence of `sync_ephys[0]` in
`sync_behav` equals `sync_ephys` element-wise, alignment returns the
constant-offset map `behav_trial = ephys_trial_position - offset` with the
offset of the claim (0 for equal lengths, else the negative of the first
index of `sync_ephys[0]` in `sync_behav`; the shorter-behavior branch is
unreachable under the anchored-match hypothesis); in particular
`sync_ephys = [5,6,7]`, `sync_behav = [1..8]` maps ephys position 0 to
behavioral trial 4.  (`make_v3` deviates when the anchor code recurs in
`sync_behav`: see the counterexample theorem.) -/
theorem bitcode_alignment_constant_offset (e b : List Int) (b0 : Nat)
    (hne : e ≠ [])
    (hanchor : npFirstEq b (e.getD 0 0) = some b0)
    (hwin : (b.drop b0).take e.length = e) :
    loadV3Trials e b none =
      .ok ((List.range e.length).map
        (fun i => (i : Int) - claimedOffsetC1 e b)) ∧
    loadV3Trials [5, 6, 7] [1, 2, 3, 4, 5, 6, 7, 8] none =
      .ok [4, 5, 6] := by
  refine ⟨?_, by decide⟩
  obtain ⟨e0, erest, rfl⟩ : ∃ e0 erest, e = e0 :: erest := by
    cases e with
    | nil => exact absurd rfl hne
    | cons a l => exact ⟨a, l, rfl⟩
  simp only [List.getD_cons_zero] at hanchor
  have hwl := congrArg List.length hwin
  rw [List.length_take, List.length_drop] at hwl
  have hble : (e0 :: erest).length ≤ b.length - b0 := min_eq_left_iff.mp hwl
  have hble2 : (e0 :: erest).length ≤ b.length := by
    have := Nat.sub_le b.length b0
    omega
  have hcmp : npAllEq (e0 :: erest) (e0 :: erest) = .ok true := by
    simp [npAllEq]
  unfold loadV3Trials
  simp only [hanchor, hwin, hcmp]
  rcases lt_trichotomy b.length (e0 :: erest).length with hlt | heq | hgt
  · omega
  · rw [if_neg (by omega), if_neg (by omega)]
    have hoff : claimedOffsetC1 (e0 :: erest) b = 0 := by
      unfold claimedOffsetC1
      rw [if_pos heq]
    rw [hoff]
    rfl
  · rw [if_neg (by omega), if_pos (by omega)]
    have hoff : claimedOffsetC1 (e0 :: erest) b = -(b0 : Int) := by
      unfold claimedOffsetC1
      rw [if_neg (by omega), if_neg (by omega)]
      simp [hanchor]
    rw [hoff]
    rfl

/-- Witness for `bitcode_alignment_constant_offset` at the claim's own
example: `sync_ephys = [5,6,7]`, `sync_behav = [1,...,8]`, anchored at
index 4, matching window, offset `-4`. -/
theorem bitcode_alignment_constant_offset_witness :
    loadV3Trials [5, 6, 7] [1, 2, 3, 4, 5, 6, 7, 8] none =
      .ok ((List.range ([5, 6, 7] : List Int).length).map
        (fun i => (i : Int) -
          claimedOffsetC1 [5, 6, 7] [1, 2, 3, 4, 5, 6, 7, 8])) :=
  (bitcode_alignment_constant_offset [5, 6, 7] [1, 2, 3, 4, 5, 6, 7, 8] 4
    (by decide) (by decide) (by decide)).1

/-- Claim C1 counterexample: for `sync_ephys = [5,6,7]` and
`sync_behav = [5,6,7,8,5]` the anchored candidate window (`b0 = 0`)
equals `sync_ephys` element-wise — the claim's hypothesis — yet `make_v3`
squeezes the two-element index array `np.where(bitCodeB == bitCodeE[0])[0]
= [0, 4]` into `startE`, so its alignment yields no constant-offset
trial-index map at all. -/
theorem makeV3_duplicate_anchor_no_offset_map :
    ((([5, 6, 7, 8, 5] : List Int).drop 0).take 3 = [5, 6, 7]) ∧
    npFirstEq [5, 6, 7, 8, 5] 5 = some 0 ∧
    makeV3FixAndStart [5, 6, 7] [5, 6, 7, 8, 5] none 2 =
      .error .multiAnchor := by decide

/-- Claim C4 (code bug): on a bitcode mismatch with no `trialNum` in the
bitcode data, `make_v3` raises `Exception('Bitcode Mismatch')` as the
claim states, but `_load_v3`'s `except IndexError` clause cannot catch
the dict `KeyError` raised by `bf['trialNum']`, so that loader aborts
with an uncaught `KeyError` instead of the Bitcode Mismatch error; either
way the session fails and nothing is emitted. -/
theorem bitcode_mismatch_failure_modes :
    loadV3Trials [1, 2] [1, 3] none = .error .keyError ∧
    makeV3FixAndStart [1, 2] [1, 3] none 0 = .error .bitcodeMismatch ∧
    loadV3Run ⟨[], [1, 2], [1, 3], none, [7500, 7510], [0, 0], [], [],
      false⟩ = ⟨[], some .keyError⟩ := by decide

/-- Claim C5 (amended): on a sync-code mismatch with a fallback
`trialNum` array, `_load_v3` uses the map `trials = trialNum - start_behav`
with `start_behav = -1` — each entry incremented by one — and applies no
further offset, while `make_v3` instead computes
`spike_trials_fix = trialNum - 1` and subtracts `startB = 0`, so each
entry is *decremented* by one (see the counterexample theorem). -/
theorem fallback_trial_renumbering (e b : List Int) (tn : List Int)
    (b0 : Nat) (maxTr tr : Nat)
    (hne : e ≠ [])
    (hanchor : npFirstEq b (e.getD 0 0) = some b0)
    (hmm : npAllEq e ((b.drop b0).take e.length) = .ok false)
    (htr : tr < tn.length) :
    loadV3Trials e b (some tn) = .ok (tn.map (fun x => x + 1)) ∧
    makeV3TrialLabel e b (some tn) maxTr tr = .ok (tn.getD tr 0 - 1) := by
  obtain ⟨e0, erest, rfl⟩ : ∃ e0 erest, e = e0 :: erest := by
    cases e with
    | nil => exact absurd rfl hne
    | cons a l => exact ⟨a, l, rfl⟩
  simp only [List.getD_cons_zero] at hanchor
  constructor
  · unfold loadV3Trials
    simp only [hanchor, hmm]
  · unfold makeV3TrialLabel makeV3FixAndStart
    simp only [hanchor, hmm, Except.map]
    rw [getD_map_int tn (fun x => x - 1) tr htr]
    simp

/-- Witness for `fallback_trial_renumbering`: mismatching codes `[1,2]`
vs `[1,3]` with fallback `trialNum = [3]`: `_load_v3` maps position 0 to
trial 4 while `make_v3` maps it to trial 2. -/
theorem fallback_trial_renumbering_witness :
    loadV3Trials [1, 2] [1, 3] (some [3]) = .ok [4] ∧
    makeV3TrialLabel [1, 2] [1, 3] (some [3]) 0 0 = .ok 2 :=
  fallback_trial_renumbering [1, 2] [1, 3] [3] 0 0 0 (by decide)
    (by decide) (by decide) (by decide)

/-- Claim C5 counterexample: the claim's formula
`map[i] = fallback_trial_numbers[i] - base` with the default
`base = -1` gives `map[0] = 3 - (-1) = 4` for `trialNum = [3]`, but
`make_v3` labels ephys trial position 0 as trial `2`. -/
theorem makeV3_fallback_decrements :
    makeV3TrialLabel [1, 2] [1, 3] (some [3]) 0 0 = .ok 2 ∧
    (Except.ok 2 : Except PyErr Int) ≠ .ok (3 - (-1)) := by decide

/-- Claim C6 (amended): `_load_v3.decode_notes` maps `single`/`ok`/
`multi`/the two-NUL empty code to `good`/`ok`/`multi`/`all` and fails
with the decode `KeyError` on every other note, as the claim states;
`make_v3`, however, silently substitutes the default label `"all"` for
every unrecognized note instead of failing (see the counterexample
theorem). -/
theorem quality_note_decoding :
    (note_map "single" = .ok "good" ∧ note_map "ok" = .ok "ok" ∧
      note_map "multi" = .ok "multi" ∧ note_map "\x00\x00" = .ok "all") ∧
    (∀ s, s ≠ "single" → s ≠ "ok" → s ≠ "multi" → s ≠ "\x00\x00" →
      note_map s = .error .keyError) ∧
    (makeV3Quality "single" = "good" ∧ makeV3Quality "ok" = "ok" ∧
      makeV3Quality "multi" = "multi") ∧
    (∀ s, s ≠ "single" → s ≠ "ok" → s ≠ "multi" →
      makeV3Quality s = "all") := by
  refine ⟨by decide, ?_, by decide, ?_⟩
  · intro s h1 h2 h3 h4
    simp [note_map, h1, h2, h3, h4]
  · intro s h1 h2 h3
    simp [makeV3Quality, h1, h2, h3]

/-- Witness for `quality_note_decoding` at the out-of-vocabulary note
`"noise"`. -/
theorem quality_note_decoding_witness :
    note_map "noise" = .error .keyError ∧ makeV3Quality "noise" = "all" :=
  ⟨quality_note_decoding.2.1 "noise" (by decide) (by decide) (by decide)
    (by decide),
   quality_note_decoding.2.2.2 "noise" (by decide) (by decide) (by decide)⟩

/-- Claim C6 counterexample: `make_v3` (lines 502-512) does not fail on
the out-of-vocabulary note `"noise"`; extraction succeeds and the unit is
labelled with the default `"all"`. -/
theorem makeV3_unrecognized_note_defaults :
    ("noise" ∉ (["single", "ok", "multi", "\x00\x00"] : List String)) ∧
    makeV3Qualities ["single", "noise"] = ["good", "all"] := by decide

/-- Claim C7 (amended): in `_load_v3` every failure point — decode error,
sync anchoring/comparison error, missing fallback, degenerate trial-start
shape — precedes any record emission, so an aborted session leaves the
output store untouched.  (`make_v3` emits electrode-config and
probe-insertion records before the bitcode check: see the counterexample
theorem.) -/
theorem loadV3_aborts_emit_nothing (inp : IngestInputs)
    (h : (loadV3Run inp).err ≠ none) : (loadV3Run inp).emitted = [] := by
  unfold loadV3Run at h ⊢
  cases hd : decode_notes inp.notes with
  | error e => simp [hd]
  | ok v =>
    cases ht : loadV3Trials inp.syncE inp.syncB inp.trialNum with
    | error e => simp [hd, ht]
    | ok tr =>
      by_cases hl : inp.sTrig.length < 2
      · simp [hd, ht, hl]
      · simp [hd, ht, hl] at h

/-- Witness for `loadV3_aborts_emit_nothing`: a session whose only
curation note is unrecognized aborts with the decode `KeyError` having
emitted nothing. -/
theorem loadV3_aborts_emit_nothing_witness :
    (loadV3Run ⟨["noise"], [1], [1], none, [7500, 7510], [0], [], [],
      false⟩).emitted = [] :=
  loadV3_aborts_emit_nothing _ (by decide)

/-- Claim C7 counterexample: a `make_v3` session aborting with the
Bitcode Mismatch error has already inserted the electrode-config,
probe-insertion and recording-setup records (lines 470-484 run before the
bitcode check of lines 543-552), so the store is not left in its
pre-ingestion state. -/
theorem makeV3_mismatch_leaves_probe_records :
    makeV3Run ⟨[], [1, 2], [1, 3], none, [7500, 7510], [0, 0], [], [],
      false⟩ =
      ⟨[.electrodeConfig, .probeInsertion, .recordingSetup],
        some .bitcodeMismatch⟩ ∧
    ([RecKind.electrodeConfig, .probeInsertion, .recordingSetup] :
      List RecKind) ≠ [] := by decide

lemma pyProbeSlot_small (t : Nat → Option Nat) (v : Nat) (hv : v < 8)
    (ht : t v = none ∨ t v = some v) : pyProbeSlot t v = v := by
  have hm : (v % 8 + 0) % 8 = v := by
    simp [Nat.mod_eq_of_lt hv]
  have hp : ((t ((v % 8 + 0) % 8)).isNone ||
      (t ((v % 8 + 0) % 8) == some v)) = true := by
    rw [hm]
    rcases ht with h | h <;> simp [h]
  unfold pyProbeSlot
  rw [show List.range 8 = [0, 1, 2, 3, 4, 5, 6, 7] from rfl,
    List.find?_cons]
  simp only [hp]
  exact hm

lemma pySetTable_small : ∀ (xs : List Nat) (t : Nat → Option Nat),
    (∀ v ∈ xs, v < 8) → (∀ i, t i = none ∨ t i = some i) →
    ∀ j, xs.foldl pyInsert t j = if j ∈ xs then some j else t j := by
  intro xs
  induction xs with
  | nil => intro t _ _ j; simp
  | cons v xs ih =>
    intro t hxs hti j
    have hv : v < 8 := hxs v (List.mem_cons_self v xs)
    have hslot : pyProbeSlot t v = v := pyProbeSlot_small t v hv (hti v)
    have hins : pyInsert t v = fun j => if j = v then some v else t j := by
      funext j
      unfold pyInsert
      rw [hslot]
    rw [List.foldl_cons, hins]
    have hti' : ∀ i, (fun j => if j = v then some v else t j) i = none ∨
        (fun j => if j = v then some v else t j) i = some i := by
      intro i
      by_cases h : i = v
      · subst h; simp
      · simp only [if_neg h]; exact hti i
    rw [ih _ (fun w hw => hxs w (List.mem_cons_of_mem v hw)) hti' j]
    by_cases hj : j ∈ xs
    · simp [hj, List.mem_cons]
    · by_cases hjv : j = v <;> simp [hj, hjv, List.mem_cons]

lemma filterMap_guard (l : List Nat) (p : Nat → Prop) [DecidablePred p] :
    l.filterMap (fun j => if p j then some j else none) =
      l.filter (fun j => decide (p j)) := by
  induction l with
  | nil => rfl
  | cons a l ih =>
    by_cases h : p a
    · simp [List.filterMap_cons, List.filter_cons, h, ih]
    · simp [List.filterMap_cons, List.filter_cons, h, ih]

/-- Claim C8 (amended): both loaders enumerate units by Python
`set(...)` iteration, which is hash-table slot order, not a sort.  For
the modelled no-resize regime the enumeration is fully determined by the
membership of the surviving id set — independent of input array order —
and is ascending precisely because ids below 8 occupy their own slot; for
general id sets it is not ascending and positional metadata is attached
to the wrong units (see the counterexample theorem). -/
theorem unit_enumeration_slot_order (xs : List Nat)
    (h : ∀ v ∈ xs, v < 8) :
    pySetList xs = (List.range 8).filter (fun v => decide (v ∈ xs)) := by
  unfold pySetList pySetTable
  have htab : (xs.foldl pyInsert (fun _ => none)) =
      fun j => if j ∈ xs then some j else none :=
    funext (pySetTable_small xs (fun _ => none) h (fun _ => Or.inl rfl))
  rw [htab]
  exact filterMap_guard (List.range 8) (fun j => j ∈ xs)

/-- Witness for `unit_enumeration_slot_order`: the id list `[2, 1, 3]`
enumerates as the ascending `[1, 2, 3]` independent of input order. -/
theorem unit_enumeration_slot_order_witness :
    pySetList [2, 1, 3] =
      (List.range 8).filter (fun v => decide (v ∈ ([2, 1, 3] : List Nat))) :=
  unit_enumeration_slot_order [2, 1, 3] (by decide)

/-- Claim C8 counterexample: for surviving cluster ids `{1, 16}` — the
input array already ascending — CPython set iteration yields `[16, 1]`,
not ascending, and the positional metadata of cluster 1 is attached to
unit 16 and vice versa. -/
theorem unit_enumeration_not_sorted :
    pySetList [1, 16] = [16, 1] ∧ ([16, 1] : List Nat) ≠ [1, 16] ∧
    attachByEnum [1, 16] ["meta_of_1", "meta_of_16"] =
      [(16, "meta_of_1"), (1, "meta_of_16")] := by decide

/-- Claim C9 (code bug): `_load_v3` computes the session-relative spike
train as `spike_tick/hz - trial_start_tick[0]/hz` exactly as the claim
states, but `make_v3` (lines 576-585) *adds* the trial's start time when
rebuilding session times: for `hz = 10`, `sTrig = [7550, 9500]`, one
spike at tick 100 in trial 0 and go cue 60, it produces 15 s where the
claimed value is `100/10 - 50/10 = 5` s, contradicting its own
"realign back to trial-start, relative to 1st trial" comment. -/
theorem sessionSpikes_divergence :
    loadV3SessionSpikes 10 [7550, 9500] [100] [1] 1 =
      [(100 : ℚ) / 10 - 50 / 10] ∧
    makeV3SessionSpikes 10 [7550, 9500] [60, 2100] [100] [1] 1 =
      [15] ∧
    (15 : ℚ) ≠ (100 : ℚ) / 10 - 50 / 10 := by
  refine ⟨?_, ?_, by norm_num⟩
  · norm_num [loadV3SessionSpikes]
  · norm_num [makeV3SessionSpikes, makeV3Assign, makeV3Loop,
      List.mergeSort]

end MapEphys
